import Mathlib

/-!
Verification of the activity-log dashboard page
(`src/apps/dashboard/routes/activity.tsx` of jellyfin-web).

The page's pure logic is embedded shallowly:
* the three-valued view mode and its URL-parameter decoder `getActivityView`;
* the URL synchronization step of the `useEffect` hook, over an explicit
  list-of-pairs model of `URLSearchParams`;
* the derived fetch parameters `activityParams`;
* the column projection (`userColDef`, `columns`) restricted to the
  statically determined data of each column definition (field name, width);
* the actions-column callback `getActions`;
* the user directory `users` built by `reduce` over the fetched user list;
* the grid row key `getRowId`;
* the view-mode change handler `onViewChange` over the page's local state.

JavaScript string truthiness (`!s` is true exactly for the empty string,
`null` and `undefined`) is rendered explicitly at each use site; optional
or nullable values become `Option`.  Rendering callbacks (JSX output,
locale formatting, translation) are outside the embedding; only the data
they are driven by (field names, link targets, lookup results) is kept.
-/

/-- `DEFAULT_PAGE_SIZE` (activity.tsx line 25). -/
def DEFAULT_PAGE_SIZE : Nat := 25

/-- `VIEW_PARAM` (activity.tsx line 26): the query-parameter key. -/
def VIEW_PARAM : String := "useractivity"

/-- The view-mode enum of the page (`const enum ActivityView`). -/
inductive ActivityView where
  | All
  | User
  | System
deriving DecidableEq, BEq, Repr

/-- Lowercasing of a string, written as a character-wise map over the
string's character list (extensionally the behavior of
`String.toLower`, whose library definition does not reduce definitionally). -/
def lowercase (s : String) : String :=
  String.mk (s.data.map Char.toLower)

/-- Modelled from the spec: the helper `toBoolean` is imported from
`utils/string`, a module not included in the provided sources.  The spec
describes it as a permissive case-insensitive string-to-boolean coercion in
which "true", "1" and "yes" map to `true` and every other string to
`false`. -/
def toBoolean (value : String) : Bool :=
  lowercase value == "true" || lowercase value == "1" || lowercase value == "yes"

/-- `getActivityView` (lines 34-38): `null` maps to `All`, otherwise
`toBoolean` decides between `User` and `System`. -/
def getActivityView : Option String → ActivityView
  | none => ActivityView.All
  | some param => if toBoolean param then ActivityView.User else ActivityView.System

/-- A fetched activity-log entry (`ActivityLogEntry` of the generated SDK
client); only the fields the page's logic reads are kept, each optional as
in the SDK model. -/
structure ActivityLogEntry where
  Id : Option Int := none
  Date : Option String := none
  Severity : Option String := none
  Name : Option String := none
  ShortOverview : Option String := none
  Overview : Option String := none
  UserId : Option String := none
  ItemId : Option String := none
deriving DecidableEq, Repr

/-- A fetched user record (`UserDto` of the generated SDK client); only the
fields the page's logic reads are kept. -/
structure UserDto where
  Id : Option String := none
  Name : Option String := none
deriving DecidableEq, Repr

/-- `getRowId` (line 40): `row.Id ?? -1`. -/
def getRowId (row : ActivityLogEntry) : Int :=
  row.Id.getD (-1)

/-- One step of the `reduce` of the `users` memo (lines 59-67): a record
whose `Id` is nullish or empty (JavaScript `!userId`) is dropped, otherwise
the accumulated record maps that id to the user, overriding any earlier
binding of the same id. -/
def usersStep (acc : String → Option UserDto) (user : UserDto) : String → Option UserDto :=
  match user.Id with
  | none => acc
  | some userId =>
    if userId = "" then acc
    else fun key => if key = userId then some user else acc key

/-- The `users` memo (lines 56-68): the identifier-keyed lookup record built
from the fetched user list.  A missing `usersData` yields the empty record,
modelled by the empty list; property lookup on a JavaScript object returns
`undefined` on a miss, modelled by `none`. -/
def users (usersData : List UserDto) : String → Option UserDto :=
  usersData.foldl usersStep (fun _ => none)

/-- The derived fetch-parameter object (lines 70-74). -/
structure ActivityParams where
  startIndex : Nat
  limit : Nat
  hasUserId : Option Bool
deriving DecidableEq, Repr

/-- `activityParams` (lines 70-74): `startIndex` is `page * pageSize`,
`limit` is `pageSize`, and `hasUserId` is `undefined` for the `All` view
and otherwise the truth of `activityView === ActivityView.User`. -/
def activityParams (activityView : ActivityView) (page pageSize : Nat) : ActivityParams where
  startIndex := page * pageSize
  limit := pageSize
  hasUserId :=
    if activityView ≠ ActivityView.All then some (activityView == ActivityView.User) else none

/-- A grid column definition, restricted to its statically determined data:
the field name and the column width (header names, value getters and cell
renderers are presentation callbacks outside the embedding). -/
structure GridColDef where
  field : String
  width : Nat
deriving DecidableEq, Repr

/-- `userColDef` (lines 80-99): the user column, present exactly when the
view mode is not `System`. -/
def userColDef (activityView : ActivityView) : List GridColDef :=
  if activityView ≠ ActivityView.System then
    [{ field := "User", width := 60 }]
  else []

/-- `columns` (lines 101-170): the projected column list, with `userColDef`
spliced in after the severity column. -/
def columns (activityView : ActivityView) : List GridColDef :=
  [{ field := "Date", width := 90 },
   { field := "Time", width := 100 },
   { field := "Severity", width := 110 }]
  ++ userColDef activityView ++
  [{ field := "Name", width := 300 },
   { field := "Overview", width := 200 },
   { field := "Type", width := 180 },
   { field := "actions", width := 50 }]

/-- A row action of the actions column: its (untranslated) label key and
its link target (the `to` prop; `to` is a Lean keyword, hence `href`). -/
structure GridAction where
  label : String
  href : String
deriving DecidableEq, Repr

/-- `getActions` (lines 152-168): the media-details action is pushed exactly
when `row.ItemId` is truthy, i.e. present and non-empty. -/
def getActions (row : ActivityLogEntry) : List GridAction :=
  match row.ItemId with
  | some itemId =>
    if itemId ≠ "" then
      [{ label := "LabelMediaDetails", href := "/details?id=" ++ itemId }]
    else []
  | none => []

/-- The page's local React state that the view-change handler can reach:
the view mode and the pagination model (lines 45-51). -/
structure ActivityPageState where
  activityView : ActivityView
  page : Nat
  pageSize : Nat
deriving DecidableEq, Repr

/-- `onViewChange` (lines 172-176): a `null` selection is ignored, otherwise
only the view-mode state is replaced. -/
def onViewChange (state : ActivityPageState) (newView : Option ActivityView) : ActivityPageState :=
  match newView with
  | none => state
  | some v => { state with activityView := v }

/-- Model of `URLSearchParams`: an ordered list of key-value pairs. -/
abbrev SearchParams : Type := List (String × String)

/-- `URLSearchParams.get`: the value of the first pair with the given key,
or `null` when there is none. -/
def getParam (params : SearchParams) (key : String) : Option String :=
  (List.find? (fun p => p.1 == key) params).map Prod.snd

/-- `URLSearchParams.delete`: removes every pair with the given key. -/
def deleteParam (params : SearchParams) (key : String) : SearchParams :=
  List.filter (fun p => p.1 != key) params

/-- `URLSearchParams.set`: replaces the value of the first pair with the
given key, deleting the other pairs with that key; appends the pair at the
end when the key is absent. -/
def setParam : SearchParams → String → String → SearchParams
  | [], key, value => [(key, value)]
  | p :: ps, key, value =>
    if p.1 == key then (key, value) :: List.filter (fun q => q.1 != key) ps
    else p :: setParam ps key value

/-- The URL-synchronization `useEffect` (lines 178-188): when the mode
decoded from the current URL differs from the in-memory mode, the parameter
is deleted (for `All`) or set to `"true"`/`"false"` (the string the template
`${activityView === ActivityView.User}` produces) and `setSearchParams` is
called once; otherwise nothing happens.  The result pairs the resulting
search parameters with the number of URL mutations performed. -/
def syncUrl (activityView : ActivityView) (searchParams : SearchParams) : SearchParams × Nat :=
  let currentViewParam := getActivityView (getParam searchParams VIEW_PARAM)
  if currentViewParam ≠ activityView then
    if activityView = ActivityView.All then
      (deleteParam searchParams VIEW_PARAM, 1)
    else
      (setParam searchParams VIEW_PARAM
        (if activityView = ActivityView.User then "true" else "false"), 1)
  else
    (searchParams, 0)

/-! ### Lemmas about the `URLSearchParams` model -/

lemma getParam_deleteParam_self (params : SearchParams) (key : String) :
    getParam (deleteParam params key) key = none := by
  induction params with
  | nil => rfl
  | cons p ps ih =>
    by_cases h : p.1 = key
    · simpa [deleteParam, List.filter_cons, h] using ih
    · simp [getParam, deleteParam, List.filter_cons, h]

lemma getParam_setParam_self (params : SearchParams) (key value : String) :
    getParam (setParam params key value) key = some value := by
  induction params with
  | nil => simp [setParam, getParam]
  | cons p ps ih =>
    by_cases h : p.1 = key
    · simp [setParam, getParam, h]
    · simpa [setParam, getParam, h] using ih

lemma getParam_deleteParam_other (params : SearchParams) (key other : String)
    (hne : other ≠ key) :
    getParam (deleteParam params key) other = getParam params other := by
  induction params with
  | nil => rfl
  | cons p ps ih =>
    by_cases h : p.1 = key
    · have hko : ¬ key = other := fun hc => hne hc.symm
      simpa [getParam, deleteParam, List.filter_cons, h, hko] using ih
    · by_cases h2 : p.1 = other
      · simp [getParam, deleteParam, List.filter_cons, h, h2, hne]
      · simpa [getParam, deleteParam, List.filter_cons, h, h2, hne] using ih

lemma getParam_setParam_other (params : SearchParams) (key value other : String)
    (hne : other ≠ key) :
    getParam (setParam params key value) other = getParam params other := by
  induction params with
  | nil =>
    have hko : ¬ key = other := fun hc => hne hc.symm
    simp [setParam, getParam, hko]
  | cons p ps ih =>
    by_cases h : p.1 = key
    · have hko : ¬ key = other := fun hc => hne hc.symm
      have hrest := getParam_deleteParam_other ps key other hne
      simpa [getParam, deleteParam, setParam, h, hko] using hrest
    · by_cases h2 : p.1 = other
      · simp [getParam, setParam, h, h2, hne]
      · simpa [getParam, setParam, h, h2, hne] using ih

/-- The lookup built by folding `usersStep` hits a key exactly when the
accumulator already did or some listed user carries that (non-empty) id. -/
lemma users_foldl_ne_none (l : List UserDto) :
    ∀ (acc : String → Option UserDto) (id : String),
      l.foldl usersStep acc id ≠ none ↔
        (acc id ≠ none ∨ ∃ u ∈ l, u.Id = some id ∧ id ≠ "") := by
  induction l with
  | nil => intro acc id; simp
  | cons u l ih =>
    intro acc id
    rw [List.foldl_cons, ih]
    cases hu : u.Id with
    | none => simp [usersStep, hu]
    | some uid =>
      by_cases h0 : uid = ""
      · subst h0
        simp [usersStep, hu]
        tauto
      · by_cases hid : id = uid
        · subst hid
          simp [usersStep, hu, h0]
        · simp [usersStep, hu, h0, hid]
          tauto

/-! ### Claim theorems -/

/-- C1: the view-mode decoder maps null/absent to `All`; any present value is
put through the permissive case-insensitive coercion, with "true", "1" and
"yes" (in any letter case) selecting `User` and every other string selecting
`System`. -/
theorem getActivityView_decodes :
    getActivityView none = ActivityView.All ∧
    ∀ s : String, getActivityView (some s) =
      if lowercase s = "true" ∨ lowercase s = "1" ∨ lowercase s = "yes"
      then ActivityView.User else ActivityView.System := by
  refine ⟨rfl, fun s => ?_⟩
  simp only [getActivityView, toBoolean, Bool.or_eq_true, beq_iff_eq, or_assoc]

/-- C2: after the URL-synchronization step runs for a mode, the parameter
holds the mode's encoding (absent for `All`, the literal "true" for `User`,
"false" for `System`) whenever a mutation happened, and in every case
re-decoding the synchronized URL yields the mode back. -/
theorem syncUrl_roundtrip (mode : ActivityView) (params : SearchParams) :
    (getActivityView (getParam params VIEW_PARAM) ≠ mode →
      getParam (syncUrl mode params).1 VIEW_PARAM =
        (match mode with
         | ActivityView.All => none
         | ActivityView.User => some "true"
         | ActivityView.System => some "false")) ∧
    getActivityView (getParam (syncUrl mode params).1 VIEW_PARAM) = mode := by
  by_cases h : getActivityView (getParam params VIEW_PARAM) = mode
  · exact ⟨fun hc => absurd h hc, by simp [syncUrl, h]⟩
  · cases mode with
    | All =>
      have hs : getParam (syncUrl ActivityView.All params).1 VIEW_PARAM = none := by
        simp [syncUrl, h, getParam_deleteParam_self]
      exact ⟨fun _ => hs, by rw [hs]; rfl⟩
    | User =>
      have hs : getParam (syncUrl ActivityView.User params).1 VIEW_PARAM = some "true" := by
        simp [syncUrl, h, getParam_setParam_self]
      exact ⟨fun _ => hs, by rw [hs]; decide⟩
    | System =>
      have hs : getParam (syncUrl ActivityView.System params).1 VIEW_PARAM = some "false" := by
        simp [syncUrl, h, getParam_setParam_self]
      exact ⟨fun _ => hs, by rw [hs]; decide⟩

/-- C2 witness: from the empty URL, switching to the `User` mode stores the
literal "true" and decodes back to `User`. -/
theorem syncUrl_roundtrip_witness :
    getActivityView (getParam ([] : SearchParams) VIEW_PARAM) ≠ ActivityView.User ∧
    getParam (syncUrl ActivityView.User []).1 VIEW_PARAM = some "true" ∧
    getActivityView (getParam (syncUrl ActivityView.User []).1 VIEW_PARAM) = ActivityView.User :=
  ⟨by decide, (syncUrl_roundtrip ActivityView.User []).1 (by decide),
    (syncUrl_roundtrip ActivityView.User []).2⟩

/-- C3: the synchronization step performs exactly one URL mutation, except
that it performs zero — and leaves the parameters untouched — when the mode
decoded from the current URL already equals the in-memory mode. -/
theorem syncUrl_mutation_count (mode : ActivityView) (params : SearchParams) :
    (getActivityView (getParam params VIEW_PARAM) = mode → syncUrl mode params = (params, 0)) ∧
    (getActivityView (getParam params VIEW_PARAM) ≠ mode → (syncUrl mode params).2 = 1) := by
  constructor
  · intro h; simp [syncUrl, h]
  · intro h
    by_cases hA : mode = ActivityView.All
    · subst hA; simp [syncUrl, h]
    · simp [syncUrl, h, hA]

/-- C3 witness: on the empty URL, synchronizing to `All` (already consistent)
mutates nothing, and synchronizing to `User` mutates exactly once. -/
theorem syncUrl_mutation_count_witness :
    syncUrl ActivityView.All [] = ([], 0) ∧ (syncUrl ActivityView.User []).2 = 1 :=
  ⟨(syncUrl_mutation_count ActivityView.All []).1 (by decide),
   (syncUrl_mutation_count ActivityView.User []).2 (by decide)⟩

/-- C4: the derived fetch parameters satisfy `startIndex = page * pageSize`
and `limit = pageSize`, with `hasUserId` absent for `All`, true for `User`
and false for `System`; in particular page 2 at size 25 in the `User` view
yields start index 50, limit 25 and `hasUserId` true. -/
theorem activityParams_spec (view : ActivityView) (page pageSize : Nat) :
    (activityParams view page pageSize).startIndex = page * pageSize ∧
    (activityParams view page pageSize).limit = pageSize ∧
    (activityParams view page pageSize).hasUserId =
      (match view with
       | ActivityView.All => none
       | ActivityView.User => some true
       | ActivityView.System => some false) ∧
    activityParams ActivityView.User 2 25 =
      { startIndex := 50, limit := 25, hasUserId := some true } := by
  refine ⟨rfl, rfl, ?_, by decide⟩
  cases view <;> rfl

/-- C5: the user column is part of the projected column set exactly when the
view mode is not `System`. -/
theorem user_column_iff (view : ActivityView) :
    (∃ c ∈ columns view, c.field = "User") ↔ view ≠ ActivityView.System := by
  cases view <;> decide

/-- C5 witness: in the `All` view the user column is present. -/
theorem user_column_iff_witness :
    ∃ c ∈ columns ActivityView.All, c.field = "User" :=
  (user_column_iff ActivityView.All).mpr (by decide)

/-- C6: a row's actions list is non-empty exactly when the row carries a
non-empty media item identifier, in which case it is the single
media-details action linking to that item's detail page. -/
theorem getActions_media_details (row : ActivityLogEntry) :
    (getActions row ≠ [] ↔ ∃ s, row.ItemId = some s ∧ s ≠ "") ∧
    ∀ s, row.ItemId = some s → s ≠ "" →
      getActions row = [{ label := "LabelMediaDetails", href := "/details?id=" ++ s }] := by
  cases h : row.ItemId with
  | none => simp [getActions, h]
  | some s => by_cases hs : s = "" <;> simp [getActions, h, hs]

/-- C6 witness: a row whose item id is "m1" gets exactly the media-details
action linking to "/details?id=m1". -/
theorem getActions_media_details_witness :
    getActions { ItemId := some "m1" } =
      [{ label := "LabelMediaDetails", href := "/details?id=m1" }] :=
  (getActions_media_details { ItemId := some "m1" }).2 "m1" rfl (by decide)

/-- C7: the view-change handler never touches the pagination state; it
replaces the view mode on a non-null selection and ignores a null one. -/
theorem onViewChange_frame (state : ActivityPageState) (newView : Option ActivityView) :
    (onViewChange state newView).page = state.page ∧
    (onViewChange state newView).pageSize = state.pageSize ∧
    (∀ v, newView = some v → (onViewChange state newView).activityView = v) ∧
    (newView = none → onViewChange state newView = state) := by
  cases newView <;> simp [onViewChange]

/-- C7 witness: switching to the `User` view while on page 3 keeps page 3
and page size 25. -/
theorem onViewChange_frame_witness :
    (onViewChange { activityView := ActivityView.All, page := 3, pageSize := 25 }
        (some ActivityView.User)).page = 3 ∧
    (onViewChange { activityView := ActivityView.All, page := 3, pageSize := 25 }
        (some ActivityView.User)).pageSize = 25 :=
  ⟨(onViewChange_frame _ _).1, (onViewChange_frame _ _).2.1⟩

/-- C8: the user directory resolves an id exactly when some fetched user
carries that id and the id is non-empty (records with a nullish or empty id
are dropped), and looking up the empty id always resolves to `none` — a
total lookup, so misses cannot raise. -/
theorem users_lookup (usersData : List UserDto) (id : String) :
    (users usersData id ≠ none ↔ ∃ u ∈ usersData, u.Id = some id ∧ id ≠ "") ∧
    users usersData "" = none := by
  constructor
  · rw [users, users_foldl_ne_none]
    simp
  · have h := users_foldl_ne_none usersData (fun _ => none) ""
    rw [users]
    by_contra hc
    rcases h.mp hc with h1 | ⟨u, _, _, hne⟩
    · exact h1 rfl
    · exact hne rfl

/-- C8 witness: a fetched user with id "u1" is found under "u1", and the
empty id misses. -/
theorem users_lookup_witness :
    users [{ Id := some "u1", Name := some "Alice" }] "u1" ≠ none ∧
    users [{ Id := some "u1", Name := some "Alice" }] "" = none :=
  ⟨(users_lookup [{ Id := some "u1", Name := some "Alice" }] "u1").1.mpr (by decide),
   (users_lookup [{ Id := some "u1", Name := some "Alice" }] "").2⟩

/-- C9: the grid row key is the entry's identifier when present and the
sentinel −1 when absent. -/
theorem getRowId_spec (row : ActivityLogEntry) :
    (∀ i, row.Id = some i → getRowId row = i) ∧
    (row.Id = none → getRowId row = -1) := by
  cases h : row.Id <;> simp [getRowId, h]

/-- C9 witness: an entry with id 7 keys as 7; an id-less entry keys as −1. -/
theorem getRowId_spec_witness :
    getRowId { Id := some 7 } = 7 ∧ getRowId { Id := none } = -1 :=
  ⟨(getRowId_spec { Id := some 7 }).1 7 rfl, (getRowId_spec { Id := none }).2 rfl⟩

/-- C10: the URL-synchronization step touches at most the `useractivity`
parameter — every other key reads the same before and after. -/
theorem syncUrl_frame (mode : ActivityView) (params : SearchParams) (key : String)
    (hkey : key ≠ VIEW_PARAM) :
    getParam (syncUrl mode params).1 key = getParam params key := by
  by_cases h : getActivityView (getParam params VIEW_PARAM) = mode
  · simp [syncUrl, h]
  · by_cases hA : mode = ActivityView.All
    · subst hA; simp [syncUrl, h, getParam_deleteParam_other _ _ _ hkey]
    · simp [syncUrl, h, hA, getParam_setParam_other _ _ _ _ hkey]

/-- C10 witness: switching to the `User` view leaves the unrelated "page"
parameter unchanged. -/
theorem syncUrl_frame_witness :
    getParam (syncUrl ActivityView.User [("page", "3")]).1 "page" =
      getParam [("page", "3")] "page" :=
  syncUrl_frame ActivityView.User [("page", "3")] "page" (by decide)
